import Mathlib

/-!
Verification of the TpLRR/BspA LRR pattern-scanning scripts.

This file gives a shallow embedding of the pattern-matching core of the
repository (src/lrr_patterns.py, src/tplrr_finder.py, src/ncbi_lrr_finder.py,
src/revised_tplrr_finder.py, src/bspa_lrr_analyzer.py) and proves properties
of it.  Sequences are lists of characters; the motif regular expressions used
by the scripts are fixed-width (every construct — literal, character class,
`(?:X|Y)` alternation of single characters, and `.\x7bn\x7d` wildcard runs —
consumes exactly one character per token), so a compiled pattern is a list of
single-character tokens and Python's `re.findall` is the left-to-right
non-overlapping scan embedded below.
-/

/-- Python-dict lookup on an association list (first binding wins; the
scripts' dicts never hold duplicate keys because insertion overwrites). -/
def dictGet {α : Type} (k : String) : List (String × α) → Option α
  | [] => none
  | (k', v) :: rest => if k = k' then some v else dictGet k rest

/-- Python-dict assignment `d[k] = v` on an association list: an existing
binding for `k` is updated in place (keeping its insertion position), a new
key is appended at the end, matching CPython dict insertion-order semantics. -/
def dictInsert {α : Type} (k : String) (v : α) : List (String × α) → List (String × α)
  | [] => [(k, v)]
  | (k', v') :: rest => if k = k' then (k, v) :: rest else (k', v') :: dictInsert k v rest

/-- One single-character token of a compiled motif expression. -/
inductive Tok : Type where
  | lit (c : Char)
  | anyChar
  | oneOf (cs : List Char)
deriving DecidableEq, Repr

/-- Test whether one token matches one character. -/
def tokMatches : Tok → Char → Bool
  | Tok.lit c, a => c = a
  | Tok.anyChar, _ => true
  | Tok.oneOf cs, a => cs.contains a

/-- Test whether the token list matches a prefix of the character list. -/
def matchesAt : List Tok → List Char → Bool
  | [], _ => true
  | _ :: _, [] => false
  | t :: ts, c :: cs => tokMatches t c && matchesAt ts cs

/-- Left-to-right non-overlapping scan, as performed by `pattern.findall` in
the scripts: at each position, if the pattern matches, the matched substring
is emitted (with its start offset) and the scan resumes right after it;
otherwise the scan advances one character.  The fuel argument is the length
of the scanned list; every step consumes at least one character, so the fuel
never runs out on the initial call. -/
def scanAux (toks : List Tok) : Nat → List Char → Nat → List (Nat × List Char)
  | 0, _, _ => []
  | _ + 1, [], _ => []
  | fuel + 1, c :: cs, i =>
    if matchesAt toks (c :: cs) then
      (i, (c :: cs).take toks.length) ::
        scanAux toks fuel ((c :: cs).drop (max toks.length 1)) (i + max toks.length 1)
    else
      scanAux toks fuel cs (i + 1)

/-- Matches of the pattern in the sequence, with start offsets. -/
def findAllPos (toks : List Tok) (s : List Char) : List (Nat × List Char) :=
  scanAux toks s.length s 0

/-- The value of `pattern.findall(sequence)` for the (group-free) motif
patterns of the scripts: the ordered list of non-overlapping matched
substrings. -/
def findall (toks : List Tok) (s : List Char) : List (List Char) :=
  (findAllPos toks s).map Prod.snd

/-- Read a run of decimal digits from the front of the list, returning its
value and the rest; fails if no digit is present. -/
def parseDigits : List Char → Nat → Bool → Option (Nat × List Char)
  | c :: rest, acc, started =>
    if c.isDigit then parseDigits rest (acc * 10 + (c.toNat - '0'.toNat)) true
    else bif started then some (acc, c :: rest) else none
  | [], acc, started => bif started then some (acc, []) else none

/-- Read the members of a character class up to the closing bracket. -/
def splitClass : List Char → Option (List Char × List Char)
  | [] => none
  | ']' :: rest => some ([], rest)
  | c :: rest => (splitClass rest).map (fun p => (c :: p.1, p.2))

/-- Read the single-character alternatives of a `(?:X|Y|...)` group up to the
closing parenthesis. -/
def splitAlts : List Char → Option (List Char × List Char)
  | c :: ')' :: rest => if c = '|' then none else some ([c], rest)
  | c :: '|' :: rest =>
    if c = ')' then none
    else (splitAlts rest).map (fun p => (c :: p.1, p.2))
  | _ => none

/-- Translate a motif expression into its token list (the embedding of
`re.compile` restricted to the fixed-width motif grammar the scripts use:
literals, bracket classes, `(?:X|Y)` single-character alternation, and
`.\x7bn\x7d` wildcard runs).  The fuel bounds recursion; each step consumes at
least one input character. -/
def parseTokens : Nat → List Char → Option (List Tok)
  | _, [] => some []
  | 0, _ :: _ => none
  | fuel + 1, '.' :: '{' :: rest =>
    match parseDigits rest 0 false with
    | none => none
    | some (n, rest2) =>
      match rest2 with
      | '}' :: rest3 => (parseTokens fuel rest3).map (List.replicate n Tok.anyChar ++ ·)
      | _ => none
  | fuel + 1, '.' :: rest => (parseTokens fuel rest).map (Tok.anyChar :: ·)
  | fuel + 1, '[' :: rest =>
    match splitClass rest with
    | none => none
    | some (cs, rest2) => (parseTokens fuel rest2).map (Tok.oneOf cs :: ·)
  | fuel + 1, '(' :: '?' :: ':' :: rest =>
    match splitAlts rest with
    | none => none
    | some (cs, rest2) => (parseTokens fuel rest2).map (Tok.oneOf cs :: ·)
  | fuel + 1, c :: rest => (parseTokens fuel rest).map (Tok.lit c :: ·)

/-- Embedding of `re.compile` on a motif expression string. -/
def compilePattern (s : String) : Option (List Tok) :=
  parseTokens s.length s.toList

/-- One entry of the pattern catalog: regular-expression text, expected match
length, human description (the `pattern` / `length` / `description` fields of
the Python dicts). -/
structure PatternInfo : Type where
  pattern : String
  length : Nat
  description : String
deriving DecidableEq, Repr

/-- The LRR pattern catalog.  The same table appears verbatim in
src/lrr_patterns.py (`LRR_PATTERNS`) and in src/ncbi_lrr_finder.py. -/
def LRR_PATTERNS : List (String × PatternInfo) :=
  [("TpLRR",
    { pattern := "(?:C|N).{2}L.{2}I.{1}L.{3}L.{2}I.{3}AF", length := 21,
      description := "TpLRR pattern (21 AA)" }),
   ("RI-like",
    { pattern := ".{3}L.{2}L.{1}L.{2}[NC].{1}L.{3}G[GAIVLMFPWC].{2}L.{2}[GAIVLMFPWC]L.{2}",
      length := 28, description := "RI-like pattern (28 AA)" }),
   ("SDS22-like",
    { pattern := "L.{2}L.{2}L.{1}L.{2}N.{1}I.{2}I.{2}L.{2}", length := 22,
      description := "SDS22-like pattern (22 AA)" }),
   ("Cysteine-containing",
    { pattern := "C.{2}L.{2}L.{1}L.{2}C.{2}ITD.{2}[GAIVLMFPWC].{2}LA.{2}", length := 22,
      description := "Cysteine-containing pattern (22 AA)" }),
   ("Bacterial",
    { pattern := "P.{2}L.{2}L.{1}V.{2}N.{1}L.{2}LP.{1}L", length := 20,
      description := "Bacterial pattern (20 AA)" }),
   ("Typical",
    { pattern := "L.{2}L.{2}L.{1}L.{2}N.{1}L.{2}LP.{2}[GAIVLMFPWC]F.{2}", length := 24,
      description := "Typical LRR pattern" }),
   ("Plant-specific",
    { pattern := "L.{2}L.{2}L.{1}L.{2}N.{1}L.{3}IP.{2}LG.{1}", length := 22,
      description := "Plant-specific pattern (22 AA)" })]

/-- Embedding of `get_compiled_pattern` from src/lrr_patterns.py: raise
`ValueError` (here: return an error) for a name absent from `LRR_PATTERNS`,
otherwise compile the entry's expression and return it with the entry's
length.  The same check guards `find_lrr_patterns` in src/ncbi_lrr_finder.py
(lines 96-101). -/
def getCompiledPattern (name : String) : Except String (List Tok × Nat) :=
  match dictGet name LRR_PATTERNS with
  | none => Except.error ("Unknown pattern: " ++ name)
  | some info =>
    match compilePattern info.pattern with
    | none => Except.error "invalid pattern expression"
    | some toks => Except.ok (toks, info.length)

/-- Structured JSON-like value, the shape written by `json.dump` and read by
`json.load` in src/lrr_patterns.py (only the constructors that the pattern
catalog persistence uses). -/
inductive Json : Type where
  | str (s : String)
  | num (n : Int)
  | obj (fields : List (String × Json))

/-- Encoding of one catalog entry as produced by `json.dump`. -/
def encodeInfo (info : PatternInfo) : Json :=
  Json.obj [("pattern", Json.str info.pattern),
            ("length", Json.num info.length),
            ("description", Json.str info.description)]

/-- Encoding of a whole catalog as produced by `json.dump`. -/
def encodeRegistry (reg : List (String × PatternInfo)) : Json :=
  Json.obj (reg.map (fun p => (p.1, encodeInfo p.2)))

/-- Embedding of `save_patterns_to_file` from src/lrr_patterns.py: the
function always dumps the global `LRR_PATTERNS` table; the file system is
abstracted away and the written JSON document is returned. -/
def savePatternsToFile : Json :=
  encodeRegistry LRR_PATTERNS

/-- Decoding of one catalog entry from the persisted document. -/
def decodeInfo : Json → Option PatternInfo
  | Json.obj [("pattern", Json.str p), ("length", Json.num n), ("description", Json.str d)] =>
    if 0 ≤ n then some { pattern := p, length := n.toNat, description := d } else none
  | _ => none

/-- Decoding of a list of catalog entries. -/
def decodeEntries : List (String × Json) → Option (List (String × PatternInfo))
  | [] => some []
  | (k, j) :: rest =>
    match decodeInfo j with
    | none => none
    | some info => (decodeEntries rest).map ((k, info) :: ·)

/-- Embedding of `load_patterns_from_file` from src/lrr_patterns.py,
interpreting the loaded JSON document as a pattern catalog. -/
def loadPatternsFromFile : Json → Option (List (String × PatternInfo))
  | Json.obj fields => decodeEntries fields
  | _ => none

/-- Per-sequence result record, the dict value stored by every script's
`find_lrr_patterns` under the sequence id: `count`, `total_lrr_length`,
`total_length` and the space-joined `patterns` string. -/
structure LrrEntry : Type where
  count : Nat
  total_lrr_length : Nat
  total_length : Nat
  patterns : List Char
deriving DecidableEq, Repr

/-- Build the per-sequence record from the match list, the reported pattern
length and the sequence, exactly as the scripts do:
`count = len(matches)`, `total_lrr_length = len(matches) * pattern_length`,
`total_length = len(sequence)`, `patterns = " ".join(matches)`. -/
def mkLrrEntry (patternLength : Nat) (ms : List (List Char)) (s : List Char) : LrrEntry :=
  { count := ms.length,
    total_lrr_length := ms.length * patternLength,
    total_length := s.length,
    patterns := List.intercalate [' '] ms }

/-- Content of an input file: a FASTA record list that is either stored as a
gzip stream or as plain text. -/
inductive FileContent : Type where
  | gz (records : List (String × List Char))
  | txt (records : List (String × List Char))

/-- Embedding of `gzip.open(file, 'rt')` followed by FASTA parsing: gzip
content decompresses to its records; reading plain text through the gzip
layer raises `BadGzipFile` (modelled as an error). -/
def gzipOpenRt : FileContent → Except String (List (String × List Char))
  | FileContent.gz records => Except.ok records
  | FileContent.txt _ => Except.error "BadGzipFile: Not a gzipped file"

/-- Embedding of `open(file, 'r')` followed by FASTA parsing: plain text
yields its records; reading a binary gzip stream in text mode does not
reproduce the original records (the bytes are not valid text and contain no
FASTA headers), modelled as a read error. -/
def plainOpenRt : FileContent → Except String (List (String × List Char))
  | FileContent.txt records => Except.ok records
  | FileContent.gz _ => Except.error "UnicodeDecodeError: not a text file"

/-- Truth value of `max_sequences and processed_count >= max_sequences` in
src/tplrr_finder.py line 105 under Python truthiness: `None` and `0` are
falsy, so the cap only fires for a nonzero count bound. -/
def maxSeqReached : Option Nat → Nat → Bool
  | none, _ => false
  | some m, c => m != 0 && decide (m ≤ c)

/-- Record loop of `find_lrr_patterns` in src/tplrr_finder.py (lines 89-107):
for each record compute the matches, store an entry only when the match list
is non-empty, increment `processed_count`, and stop early when the
`max_sequences` cap is reached.  Returns the result dict and the final
`processed_count`. -/
def tplrrLoop (toks : List Tok) (patternLength : Nat) (maxSeq : Option Nat) :
    List (String × List Char) → List (String × LrrEntry) → Nat →
    List (String × LrrEntry) × Nat
  | [], acc, cnt => (acc, cnt)
  | (id, s) :: rest, acc, cnt =>
    let ms := findall toks s
    let acc2 := if ms.isEmpty then acc else dictInsert id (mkLrrEntry patternLength ms s) acc
    if maxSeqReached maxSeq (cnt + 1) then (acc2, cnt + 1)
    else tplrrLoop toks patternLength maxSeq rest acc2 (cnt + 1)

/-- Embedding of `find_lrr_patterns` from src/tplrr_finder.py: look the
pattern up in the catalog, gzip-open the input and run the record loop with
the optional `max_sequences` cap. -/
def tplrrFindLrrPatterns (patternName : String) (maxSeq : Option Nat)
    (content : FileContent) : Except String (List (String × LrrEntry)) :=
  match getCompiledPattern patternName with
  | Except.error e => Except.error e
  | Except.ok (toks, patternLength) =>
    match gzipOpenRt content with
    | Except.error e => Except.error e
    | Except.ok records => Except.ok (tplrrLoop toks patternLength maxSeq records [] 0).1

/-- Record loop of `find_lrr_patterns` in src/ncbi_lrr_finder.py (lines
110-126): like the tplrr loop but with no record cap. -/
def ncbiLoop (toks : List Tok) (patternLength : Nat) :
    List (String × List Char) → List (String × LrrEntry) → List (String × LrrEntry)
  | [], acc => acc
  | (id, s) :: rest, acc =>
    let ms := findall toks s
    ncbiLoop toks patternLength rest
      (if ms.isEmpty then acc else dictInsert id (mkLrrEntry patternLength ms s) acc)

/-- Embedding of `find_lrr_patterns` from src/ncbi_lrr_finder.py: check the
name against the catalog (raising for unknown names), compile, gzip-open and
scan. -/
def ncbiFindLrrPatterns (patternName : String) (content : FileContent) :
    Except String (List (String × LrrEntry)) :=
  match getCompiledPattern patternName with
  | Except.error e => Except.error e
  | Except.ok (toks, patternLength) =>
    match gzipOpenRt content with
    | Except.error e => Except.error e
    | Except.ok records => Except.ok (ncbiLoop toks patternLength records [])

/-- Embedding of `process_file` from src/ncbi_lrr_finder.py (lines 176-195):
any exception raised while processing the file is caught and `None` is
returned for that file; on success the result is kept. -/
def processFileNcbi (patternName : String) (content : FileContent) :
    Option (List (String × LrrEntry)) :=
  match ncbiFindLrrPatterns patternName content with
  | Except.ok d => some d
  | Except.error _ => none

/-- Embedding of the sequential batch loop of `main` in
src/ncbi_lrr_finder.py: each file is processed independently via
`process_file` and contributes one entry (path, per-file outcome) to the
batch result. -/
def ncbiBatch (patternName : String) (files : List (String × FileContent)) :
    List (String × Option (List (String × LrrEntry))) :=
  files.map (fun f => (f.1, processFileNcbi patternName f.2))

/-- The hard-coded motif expression of src/revised_tplrr_finder.py line 41. -/
def revisedPatternStr : String :=
  "[CN].{2}[LVI].{2}[LVI].{1}[LVI].{3}[LVI].{2}[LVI].{3}AF"

/-- Record loop of `find_lrr_patterns` in src/revised_tplrr_finder.py (lines
49-62): every record is stored, with or without matches, using the fixed
reported length 21. -/
def revisedLoop (toks : List Tok) :
    List (String × List Char) → List (String × LrrEntry) → List (String × LrrEntry)
  | [], acc => acc
  | (id, s) :: rest, acc =>
    revisedLoop toks rest (dictInsert id (mkLrrEntry 21 (findall toks s) s) acc)

/-- Embedding of `find_lrr_patterns` from src/revised_tplrr_finder.py: the
file is opened as plain text (no gzip layer) and every record is retained. -/
def revisedFindLrrPatterns (content : FileContent) :
    Except String (List (String × LrrEntry)) :=
  match compilePattern revisedPatternStr with
  | none => Except.error "invalid pattern expression"
  | some toks =>
    match plainOpenRt content with
    | Except.error e => Except.error e
    | Except.ok records => Except.ok (revisedLoop toks records [])

/-- The default custom pattern of src/bspa_lrr_analyzer.py line 70. -/
def bspaDefaultPatternStr : String :=
  "C.{2}L.{2}I.{1}L.{3}L.{2}I.{3}AF"

/-- Record loop of `find_lrr_patterns` in src/bspa_lrr_analyzer.py (lines
80-89): every record is stored and the reported pattern length is the
hard-coded 21 regardless of the pattern in use. -/
def bspaLoop (toks : List Tok) :
    List (String × List Char) → List (String × LrrEntry) → List (String × LrrEntry)
  | [], acc => acc
  | (id, s) :: rest, acc =>
    bspaLoop toks rest (dictInsert id (mkLrrEntry 21 (findall toks s) s) acc)

/-- Embedding of `find_lrr_patterns` from src/bspa_lrr_analyzer.py: an
optional caller-supplied pattern expression replaces the default TpLRR
expression, the file is opened as plain text, and every record is retained
with `pattern_length = 21` fixed. -/
def bspaFindLrrPatterns (patternStr : Option String) (content : FileContent) :
    Except String (List (String × LrrEntry)) :=
  match compilePattern (patternStr.getD bspaDefaultPatternStr) with
  | none => Except.error "invalid pattern expression"
  | some toks =>
    match plainOpenRt content with
    | Except.error e => Except.error e
    | Except.ok records => Except.ok (bspaLoop toks records [])

theorem dictGet_dictInsert_self {α : Type} (k : String) (v : α) :
    ∀ l : List (String × α), dictGet k (dictInsert k v l) = some v := by
  intro l
  induction l with
  | nil => simp [dictInsert, dictGet]
  | cons p rest ih =>
    by_cases h : k = p.1
    · simp [dictInsert, dictGet, h]
    · simp only [dictInsert]
      rw [if_neg h]
      simp only [dictGet]
      rw [if_neg h]
      exact ih

theorem dictGet_dictInsert_ne {α : Type} (k k' : String) (v : α) (h : k ≠ k') :
    ∀ l : List (String × α), dictGet k (dictInsert k' v l) = dictGet k l := by
  intro l
  induction l with
  | nil => simp [dictInsert, dictGet, h]
  | cons p rest ih =>
    by_cases h2 : k' = p.1
    · simp only [dictInsert]
      rw [if_pos h2]
      simp only [dictGet]
      rw [if_neg h, if_neg (h2 ▸ h)]
    · simp only [dictInsert]
      rw [if_neg h2]
      simp only [dictGet]
      by_cases h3 : k = p.1
      · rw [if_pos h3, if_pos h3]
      · rw [if_neg h3, if_neg h3]
        exact ih

theorem mem_dictInsert {α : Type} (k : String) (v : α) :
    ∀ (l : List (String × α)) (p : String × α),
      p ∈ dictInsert k v l → p = (k, v) ∨ p ∈ l := by
  intro l
  induction l with
  | nil => intro p hp; simp [dictInsert] at hp; exact Or.inl hp
  | cons q rest ih =>
    intro p hp
    simp only [dictInsert] at hp
    by_cases h : k = q.1
    · rw [if_pos h] at hp
      rcases List.mem_cons.mp hp with h1 | h1
      · exact Or.inl h1
      · exact Or.inr (List.mem_cons_of_mem _ h1)
    · rw [if_neg h] at hp
      rcases List.mem_cons.mp hp with h1 | h1
      · exact Or.inr (h1 ▸ List.mem_cons_self q rest)
      · rcases ih p h1 with h2 | h2
        · exact Or.inl h2
        · exact Or.inr (List.mem_cons_of_mem _ h2)

theorem dictGet_mem {α : Type} (k : String) (v : α) :
    ∀ l : List (String × α), dictGet k l = some v → (k, v) ∈ l := by
  intro l
  induction l with
  | nil => intro h; simp [dictGet] at h
  | cons p rest ih =>
    intro h
    simp only [dictGet] at h
    by_cases h2 : k = p.1
    · rw [if_pos h2] at h
      have hv : p.2 = v := by injection h
      have hkv : (k, v) = p := by
        cases p
        simp only at h2 hv
        rw [h2, hv]
      rw [hkv]
      exact List.mem_cons_self p rest
    · rw [if_neg h2] at h
      exact List.mem_cons_of_mem _ (ih h)

theorem scanAux_mem_pos_le (toks : List Tok) :
    ∀ (fuel : Nat) (l : List Char) (i : Nat) (p : Nat × List Char),
      p ∈ scanAux toks fuel l i → i ≤ p.1 := by
  intro fuel
  induction fuel with
  | zero => intro l i p hp; simp [scanAux] at hp
  | succ fuel ih =>
    intro l i p hp
    match l with
    | [] => simp [scanAux] at hp
    | c :: cs =>
      simp only [scanAux] at hp
      by_cases h : matchesAt toks (c :: cs)
      · rw [if_pos h] at hp
        rcases List.mem_cons.mp hp with h1 | h1
        · rw [h1]
        · have := ih _ _ p h1
          omega
      · rw [if_neg h] at hp
        have := ih _ _ p hp
        omega

theorem scanAux_chain (toks : List Tok) :
    ∀ (fuel : Nat) (l : List Char) (i : Nat),
      List.Chain' (fun a b => a.1 + a.2.length ≤ b.1) (scanAux toks fuel l i) := by
  intro fuel
  induction fuel with
  | zero => intro l i; simp [scanAux]
  | succ fuel ih =>
    intro l i
    match l with
    | [] => simp [scanAux]
    | c :: cs =>
      simp only [scanAux]
      by_cases h : matchesAt toks (c :: cs)
      · rw [if_pos h]
        refine List.chain'_cons'.mpr ⟨?_, ih _ _⟩
        intro b hb
        have hmem : b ∈ scanAux toks fuel ((c :: cs).drop (max toks.length 1))
            (i + max toks.length 1) := List.mem_of_mem_head? hb
        have hge := scanAux_mem_pos_le toks _ _ _ b hmem
        have hlen : ((c :: cs).take toks.length).length ≤ toks.length := by
          simp [List.length_take]
        simp only
        omega
      · rw [if_neg h]
        exact ih _ _

theorem decodeInfo_encodeInfo (info : PatternInfo) :
    decodeInfo (encodeInfo info) = some info := by
  cases info with
  | mk p n d => simp [encodeInfo, decodeInfo]

theorem decodeEntries_encodeRegistry :
    ∀ reg : List (String × PatternInfo),
      decodeEntries (reg.map (fun p => (p.1, encodeInfo p.2))) = some reg := by
  intro reg
  induction reg with
  | nil => simp [decodeEntries]
  | cons p rest ih => simp [decodeEntries, decodeInfo_encodeInfo, ih]

theorem compilePattern_bundled :
    ∀ p ∈ LRR_PATTERNS, (compilePattern p.2.pattern).isSome = true := by
  decide

theorem bspaLoop_skip (toks : List Tok) (id : String) :
    ∀ (recs : List (String × List Char)) (acc : List (String × LrrEntry)),
      (∀ r ∈ recs, r.1 ≠ id) →
      dictGet id (bspaLoop toks recs acc) = dictGet id acc := by
  intro recs
  induction recs with
  | nil => intro acc _; rfl
  | cons r rest ih =>
    intro acc h
    obtain ⟨rid, rs⟩ := r
    simp only [bspaLoop]
    rw [ih _ (fun q hq => h q (List.mem_cons_of_mem _ hq))]
    exact dictGet_dictInsert_ne id rid _
      (fun he => h (rid, rs) (List.mem_cons_self _ _) he.symm) acc

theorem bspaLoop_lastwins (toks : List Tok) (id : String) :
    ∀ (recs1 : List (String × List Char)) (s : List Char)
      (recs2 : List (String × List Char)) (acc : List (String × LrrEntry)),
      (∀ r ∈ recs2, r.1 ≠ id) →
      dictGet id (bspaLoop toks (recs1 ++ (id, s) :: recs2) acc) =
        some (mkLrrEntry 21 (findall toks s) s) := by
  intro recs1
  induction recs1 with
  | nil =>
    intro s recs2 acc h
    simp only [List.nil_append, bspaLoop]
    rw [bspaLoop_skip toks id recs2 _ h, dictGet_dictInsert_self]
  | cons r rest ih =>
    intro s recs2 acc h
    obtain ⟨rid, rs⟩ := r
    simp only [List.cons_append, bspaLoop]
    exact ih s recs2 _ h

theorem tplrrLoop_skip (toks : List Tok) (plen : Nat) (id : String) :
    ∀ (recs : List (String × List Char)) (acc : List (String × LrrEntry)) (cnt : Nat),
      (∀ r ∈ recs, r.1 = id → findall toks r.2 = []) →
      dictGet id ((tplrrLoop toks plen none recs acc cnt).1) = dictGet id acc := by
  intro recs
  induction recs with
  | nil => intro acc cnt _; rfl
  | cons r rest ih =>
    intro acc cnt h
    obtain ⟨rid, rs⟩ := r
    simp only [tplrrLoop, maxSeqReached, Bool.false_eq_true, if_false]
    rw [ih _ _ (fun q hq hq2 => h q (List.mem_cons_of_mem _ hq) hq2)]
    by_cases hid : rid = id
    · have hempty : findall toks rs = [] := h (rid, rs) (List.mem_cons_self _ _) hid
      simp [hempty]
    · by_cases hm : (findall toks rs).isEmpty
      · simp [hm]
      · simp only [hm, Bool.false_eq_true, if_false]
        exact dictGet_dictInsert_ne id rid _ (fun he => hid he.symm) acc

theorem tplrrLoop_lastwins (toks : List Tok) (plen : Nat) (id : String) :
    ∀ (recs1 : List (String × List Char)) (s : List Char)
      (recs2 : List (String × List Char)) (acc : List (String × LrrEntry)) (cnt : Nat),
      findall toks s ≠ [] →
      (∀ r ∈ recs2, r.1 = id → findall toks r.2 = []) →
      dictGet id ((tplrrLoop toks plen none (recs1 ++ (id, s) :: recs2) acc cnt).1) =
        some (mkLrrEntry plen (findall toks s) s) := by
  intro recs1
  induction recs1 with
  | nil =>
    intro s recs2 acc cnt hne h
    simp only [List.nil_append, tplrrLoop, maxSeqReached, Bool.false_eq_true, if_false]
    have hempty : (findall toks s).isEmpty = false := by
      cases hfs : findall toks s with
      | nil => exact absurd hfs hne
      | cons m rest => rfl
    simp only [hempty, Bool.false_eq_true, if_false]
    rw [tplrrLoop_skip toks plen id recs2 _ _ h, dictGet_dictInsert_self]
  | cons r rest ih =>
    intro s recs2 acc cnt hne h
    obtain ⟨rid, rs⟩ := r
    simp only [List.cons_append, tplrrLoop, maxSeqReached, Bool.false_eq_true, if_false]
    exact ih s recs2 _ _ hne h

theorem maxSeqReached_none_or_zero (c : Nat) :
    maxSeqReached none c = false ∧ maxSeqReached (some 0) c = false := by
  simp [maxSeqReached]

theorem tplrrLoop_some_zero (toks : List Tok) (plen : Nat) :
    ∀ (recs : List (String × List Char)) (acc : List (String × LrrEntry)) (cnt : Nat),
      tplrrLoop toks plen (some 0) recs acc cnt = tplrrLoop toks plen none recs acc cnt := by
  intro recs
  induction recs with
  | nil => intro acc cnt; rfl
  | cons r rest ih =>
    intro acc cnt
    obtain ⟨rid, rs⟩ := r
    simp only [tplrrLoop, (maxSeqReached_none_or_zero (cnt + 1)).1,
      (maxSeqReached_none_or_zero (cnt + 1)).2, Bool.false_eq_true, if_false]
    exact ih _ _

theorem tplrrLoop_none_count (toks : List Tok) (plen : Nat) :
    ∀ (recs : List (String × List Char)) (acc : List (String × LrrEntry)) (cnt : Nat),
      (tplrrLoop toks plen none recs acc cnt).2 = cnt + recs.length := by
  intro recs
  induction recs with
  | nil => intro acc cnt; simp [tplrrLoop]
  | cons r rest ih =>
    intro acc cnt
    obtain ⟨rid, rs⟩ := r
    simp only [tplrrLoop, maxSeqReached, Bool.false_eq_true, if_false]
    rw [ih]
    simp [List.length_cons]
    omega

theorem tplrrLoop_cap_count (toks : List Tok) (plen : Nat) (n : Nat) :
    ∀ (recs : List (String × List Char)) (acc : List (String × LrrEntry)) (cnt : Nat),
      cnt < n →
      (tplrrLoop toks plen (some n) recs acc cnt).2 = min n (cnt + recs.length) := by
  intro recs
  induction recs with
  | nil => intro acc cnt h; simp [tplrrLoop]; omega
  | cons r rest ih =>
    intro acc cnt h
    obtain ⟨rid, rs⟩ := r
    simp only [tplrrLoop]
    by_cases hc : n ≤ cnt + 1
    · have hb : maxSeqReached (some n) (cnt + 1) = true := by
        simp [maxSeqReached, hc]
        omega
      rw [if_pos hb]
      simp only [List.length_cons]
      omega
    · have hb : maxSeqReached (some n) (cnt + 1) = false := by
        simp [maxSeqReached]
        omega
      rw [hb]
      simp only [Bool.false_eq_true, if_false]
      rw [ih _ _ (by omega)]
      simp only [List.length_cons]
      omega

theorem bspaLoop_entries (toks : List Tok) :
    ∀ (recs : List (String × List Char)) (acc : List (String × LrrEntry)),
      (∀ q ∈ acc, q.2.total_lrr_length = q.2.count * 21) →
      ∀ p ∈ bspaLoop toks recs acc, p.2.total_lrr_length = p.2.count * 21 := by
  intro recs
  induction recs with
  | nil => intro acc hacc p hp; exact hacc p hp
  | cons r rest ih =>
    intro acc hacc p hp
    obtain ⟨rid, rs⟩ := r
    simp only [bspaLoop] at hp
    refine ih _ ?_ p hp
    intro q hq
    rcases mem_dictInsert _ _ _ _ hq with h1 | h1
    · rw [h1]
      simp [mkLrrEntry]
    · exact hacc q h1

theorem sum_map_length_of_const :
    ∀ l : List (List Char), (∀ m ∈ l, m.length = 21) →
      (l.map List.length).sum = l.length * 21 := by
  intro l
  induction l with
  | nil => intro _; simp
  | cons m rest ih =>
    intro h
    simp only [List.map_cons, List.sum_cons, List.length_cons]
    rw [h m (List.mem_cons_self _ _), ih (fun q hq => h q (List.mem_cons_of_mem _ hq))]
    ring

/-- C1: with the bundled TpLRR pattern (expected length 21), scanning the
sequence "XXCXXLXXIXLXXXLXXIXXXAFYYYY" yields exactly one match, the
21-character substring "CXXLXXIXLXXXLXXIXXXAF", and the derived statistics
are count = 1, total_motif_length = 21 and sequence_length = 27. -/
theorem c1_tplrr_concrete_scenario :
    (getCompiledPattern "TpLRR").map
        (fun tp => findall tp.1 "XXCXXLXXIXLXXXLXXIXXXAFYYYY".toList) =
      Except.ok ["CXXLXXIXLXXXLXXIXXXAF".toList] ∧
    tplrrFindLrrPatterns "TpLRR" none
        (FileContent.gz [("seq1", "XXCXXLXXIXLXXXLXXIXXXAFYYYY".toList)]) =
      Except.ok [("seq1",
        { count := 1, total_lrr_length := 21, total_length := 27,
          patterns := "CXXLXXIXLXXXLXXIXXXAF".toList })] ∧
    "CXXLXXIXLXXXLXXIXXXAF".toList.length = 21 ∧
    "XXCXXLXXIXLXXXLXXIXXXAFYYYY".toList.length = 27 :=
  ⟨rfl, rfl, rfl, rfl⟩

/-- C2, counterexample: with the user-supplied custom pattern "AB" (whose
matches are 2 characters wide) on the sequence "AB", the recorded
total_motif_length is 21 (the hard-coded `len(pattern_matches) * 21` of
src/bspa_lrr_analyzer.py), not 2, the sum of the matched substring lengths —
so total_motif_length does not equal the sum of matched substring lengths. -/
theorem c2_total_length_counterexample :
    bspaFindLrrPatterns (some "AB") (FileContent.txt [("x", "AB".toList)]) =
      Except.ok [("x",
        { count := 1, total_lrr_length := 21, total_length := 2,
          patterns := "AB".toList })] ∧
    (compilePattern "AB").map
        (fun toks => ((findall toks "AB".toList).map List.length).sum) = some 2 ∧
    (21 : Nat) ≠ 2 :=
  ⟨rfl, rfl, by decide⟩

/-- C2, amended: every entry recorded by the bspa analyzer carries
total_motif_length = count * 21 (the hard-coded TpLRR reporting length),
for every compiled pattern including custom ones; this equals the sum of the
matched substring lengths only in the special case where every match is
exactly 21 characters wide. -/
theorem c2_total_length_amended :
    (∀ (toks : List Tok) (recs : List (String × List Char)) (p : String × LrrEntry),
      p ∈ bspaLoop toks recs [] → p.2.total_lrr_length = p.2.count * 21) ∧
    (∀ (toks : List Tok) (s : List Char),
      (∀ m ∈ findall toks s, m.length = 21) →
      ((findall toks s).map List.length).sum = (findall toks s).length * 21) :=
  ⟨fun toks recs p hp => bspaLoop_entries toks recs [] (by simp) p hp,
   fun toks s h => sum_map_length_of_const (findall toks s) h⟩

/-- Witness for the amended C2 at concrete inputs. -/
theorem c2_total_length_amended_witness :
    ((("x", { count := 1, total_lrr_length := 21, total_length := 1,
              patterns := "A".toList }) : String × LrrEntry) ∈
        bspaLoop [Tok.lit 'A'] [("x", "A".toList)] [] ∧
      ({ count := 1, total_lrr_length := 21, total_length := 1,
         patterns := "A".toList } : LrrEntry).total_lrr_length =
        ({ count := 1, total_lrr_length := 21, total_length := 1,
           patterns := "A".toList } : LrrEntry).count * 21) ∧
    ((∀ m ∈ findall [Tok.lit 'Z'] ['A'], m.length = 21) ∧
      ((findall [Tok.lit 'Z'] ['A']).map List.length).sum =
        (findall [Tok.lit 'Z'] ['A']).length * 21) :=
  ⟨⟨by decide,
    c2_total_length_amended.1 [Tok.lit 'A'] [("x", "A".toList)]
      ("x", { count := 1, total_lrr_length := 21, total_length := 1,
              patterns := "A".toList }) (by decide)⟩,
   ⟨by decide, c2_total_length_amended.2 [Tok.lit 'Z'] ['A'] (by decide)⟩⟩

/-- C3: saving the pattern registry and loading it back yields a registry
equal to the original in every field; the first conjunct is the concrete
round trip of the bundled catalog, the second the round trip for every
catalog value. -/
theorem c3_registry_roundtrip :
    loadPatternsFromFile savePatternsToFile = some LRR_PATTERNS ∧
    ∀ reg : List (String × PatternInfo),
      loadPatternsFromFile (encodeRegistry reg) = some reg := by
  constructor
  · rfl
  · intro reg
    simp only [encodeRegistry, loadPatternsFromFile]
    exact decodeEntries_encodeRegistry reg

/-- C4: looking up a name absent from the registry fails with an
unknown-pattern error; looking up a present name succeeds and returns that
entry's compiled pattern together with its expected length. -/
theorem c4_lookup_contract (name : String) :
    (dictGet name LRR_PATTERNS = none →
      ∃ e, getCompiledPattern name = Except.error e) ∧
    (∀ info, dictGet name LRR_PATTERNS = some info →
      ∃ toks, compilePattern info.pattern = some toks ∧
        getCompiledPattern name = Except.ok (toks, info.length)) := by
  constructor
  · intro h
    refine ⟨"Unknown pattern: " ++ name, ?_⟩
    simp [getCompiledPattern, h]
  · intro info h
    have hc := compilePattern_bundled (name, info) (dictGet_mem name info LRR_PATTERNS h)
    obtain ⟨toks, ht⟩ := Option.isSome_iff_exists.mp hc
    exact ⟨toks, ht, by simp [getCompiledPattern, h, ht]⟩

/-- Witness for C4 at a present name ("TpLRR") and an absent name. -/
theorem c4_lookup_contract_witness :
    (∃ e, getCompiledPattern "NoSuchPattern" = Except.error e) ∧
    (∃ toks, compilePattern "(?:C|N).{2}L.{2}I.{1}L.{3}L.{2}I.{3}AF" = some toks ∧
      getCompiledPattern "TpLRR" = Except.ok (toks, 21)) :=
  ⟨(c4_lookup_contract "NoSuchPattern").1 (by decide),
   (c4_lookup_contract "TpLRR").2
     { pattern := "(?:C|N).{2}L.{2}I.{1}L.{3}L.{2}I.{3}AF", length := 21,
       description := "TpLRR pattern (21 AA)" } (by decide)⟩

/-- C5: the ordered match list is non-overlapping and in scan order (for any
two consecutive matches the second start offset is at least the first start
offset plus the first match's length), the matcher's returned substrings are
the projections of that list, and after a match at position i of width
`toks.length` the scan resumes at position i + toks.length. -/
theorem c5_nonoverlap_scan (toks : List Tok) (s : List Char) :
    List.Chain' (fun a b => a.1 + a.2.length ≤ b.1) (findAllPos toks s) ∧
    findall toks s = (findAllPos toks s).map Prod.snd ∧
    (∀ (fuel i : Nat) (c : Char) (cs : List Char),
      matchesAt toks (c :: cs) = true → toks ≠ [] →
      scanAux toks (fuel + 1) (c :: cs) i =
        (i, (c :: cs).take toks.length) ::
          scanAux toks fuel ((c :: cs).drop toks.length) (i + toks.length)) := by
  refine ⟨scanAux_chain toks s.length s 0, rfl, ?_⟩
  intro fuel i c cs hm hne
  have hlen : 1 ≤ toks.length := by
    cases toks with
    | nil => exact absurd rfl hne
    | cons t ts => simp
  have hmax : max toks.length 1 = toks.length := by omega
  simp only [scanAux, hm, if_true, hmax]

/-- Witness for the resumption conjunct of C5 at a concrete match. -/
theorem c5_nonoverlap_scan_witness :
    matchesAt [Tok.lit 'A'] ['A', 'B'] = true ∧
    scanAux [Tok.lit 'A'] 2 ['A', 'B'] 0 =
      (0, (['A', 'B']).take 1) :: scanAux [Tok.lit 'A'] 1 ((['A', 'B']).drop 1) 1 :=
  ⟨by decide,
   (c5_nonoverlap_scan [Tok.lit 'A'] []).2.2 1 0 'A' ['B'] (by decide) (by decide)⟩

/-- C6, counterexample: the tplrr reader does not yield the same records for
plain-text input as for gzip input — the very same record list succeeds when
stored as gzip but raises BadGzipFile when stored as plain text, because the
code unconditionally opens through the gzip layer with no format detection. -/
theorem c6_gzip_counterexample :
    tplrrFindLrrPatterns "TpLRR" none
        (FileContent.gz [("seqA", "XXCXXLXXIXLXXXLXXIXXXAFYYYY".toList)]) =
      Except.ok [("seqA",
        { count := 1, total_lrr_length := 21, total_length := 27,
          patterns := "CXXLXXIXLXXXLXXIXXXAF".toList })] ∧
    tplrrFindLrrPatterns "TpLRR" none
        (FileContent.txt [("seqA", "XXCXXLXXIXLXXXLXXIXXXAFYYYY".toList)]) =
      Except.error "BadGzipFile: Not a gzipped file" :=
  ⟨rfl, rfl⟩

/-- C6, amended: each reader handles exactly one encoding rather than
detecting compression: tplrr_finder and ncbi_lrr_finder always gunzip (gzip
content yields its records, plain text fails), while revised_tplrr_finder and
bspa_lrr_analyzer always read plain text (plain content yields its records,
gzip content is not decompressed and fails to parse). -/
theorem c6_reader_encoding_amended (recs : List (String × List Char)) :
    (∃ d, tplrrFindLrrPatterns "TpLRR" none (FileContent.gz recs) = Except.ok d) ∧
    (∃ e, tplrrFindLrrPatterns "TpLRR" none (FileContent.txt recs) = Except.error e) ∧
    (∃ d, ncbiFindLrrPatterns "RI-like" (FileContent.gz recs) = Except.ok d) ∧
    (∃ e, ncbiFindLrrPatterns "RI-like" (FileContent.txt recs) = Except.error e) ∧
    (∃ d, revisedFindLrrPatterns (FileContent.txt recs) = Except.ok d) ∧
    (∃ e, revisedFindLrrPatterns (FileContent.gz recs) = Except.error e) ∧
    (∃ d, bspaFindLrrPatterns none (FileContent.txt recs) = Except.ok d) ∧
    (∃ e, bspaFindLrrPatterns none (FileContent.gz recs) = Except.error e) :=
  ⟨⟨_, rfl⟩, ⟨_, rfl⟩, ⟨_, rfl⟩, ⟨_, rfl⟩, ⟨_, rfl⟩, ⟨_, rfl⟩, ⟨_, rfl⟩, ⟨_, rfl⟩⟩

/-- C7: in the ncbi batch loop a failing file contributes exactly its own
error entry (a `none` outcome) and every other file's entry is the same as in
the batch that omits the failing file. -/
theorem c7_batch_isolation (patternName : String)
    (fs1 fs2 : List (String × FileContent)) (b : String × FileContent)
    (h : processFileNcbi patternName b.2 = none) :
    ncbiBatch patternName (fs1 ++ b :: fs2) =
      ncbiBatch patternName fs1 ++ (b.1, none) :: ncbiBatch patternName fs2 ∧
    ncbiBatch patternName (fs1 ++ fs2) =
      ncbiBatch patternName fs1 ++ ncbiBatch patternName fs2 := by
  constructor
  · simp [ncbiBatch, h]
  · simp [ncbiBatch]

/-- Witness for C7: a concrete two-file batch where the second file fails
(plain text offered to the gzip reader). -/
theorem c7_batch_isolation_witness :
    ncbiBatch "TpLRR"
        ([("good.protein.faa.gz",
            FileContent.gz [("s", "XXCXXLXXIXLXXXLXXIXXXAFYYYY".toList)])] ++
          ("bad.protein.faa.gz", FileContent.txt []) :: []) =
      ncbiBatch "TpLRR"
          [("good.protein.faa.gz",
            FileContent.gz [("s", "XXCXXLXXIXLXXXLXXIXXXAFYYYY".toList)])] ++
        ("bad.protein.faa.gz", none) :: ncbiBatch "TpLRR" [] ∧
    ncbiBatch "TpLRR"
        ([("good.protein.faa.gz",
            FileContent.gz [("s", "XXCXXLXXIXLXXXLXXIXXXAFYYYY".toList)])] ++ []) =
      ncbiBatch "TpLRR"
          [("good.protein.faa.gz",
            FileContent.gz [("s", "XXCXXLXXIXLXXXLXXIXXXAFYYYY".toList)])] ++
        ncbiBatch "TpLRR" [] :=
  c7_batch_isolation "TpLRR"
    [("good.protein.faa.gz", FileContent.gz [("s", "XXCXXLXXIXLXXXLXXIXXXAFYYYY".toList)])]
    [] ("bad.protein.faa.gz", FileContent.txt []) rfl

/-- C8: a sequence with zero pattern occurrences is scanned without error
and produces count = 0 with an empty match list; under the keep-only-matches
policy (tplrr_finder, ncbi_lrr_finder) it is excluded from the file result,
and under the keep-all policy (bspa_lrr_analyzer, revised_tplrr_finder) it is
present with count = 0. -/
theorem c8_zero_match_policy (toks : List Tok) (plen : Nat) (id : String)
    (s : List Char) (h : findall toks s = []) :
    (tplrrLoop toks plen none [(id, s)] [] 0).1 = [] ∧
    ncbiLoop toks plen [(id, s)] [] = [] ∧
    bspaLoop toks [(id, s)] [] =
      [(id, { count := 0, total_lrr_length := 0, total_length := s.length,
              patterns := [] })] ∧
    revisedLoop toks [(id, s)] [] =
      [(id, { count := 0, total_lrr_length := 0, total_length := s.length,
              patterns := [] })] := by
  refine ⟨?_, ?_, ?_, ?_⟩ <;>
    simp [tplrrLoop, ncbiLoop, bspaLoop, revisedLoop, maxSeqReached, h, mkLrrEntry,
      dictInsert, List.intercalate, List.intersperse]

/-- Witness for C8 at a concrete sequence with no match. -/
theorem c8_zero_match_policy_witness :
    findall [Tok.lit 'Z'] ['A'] = [] ∧
    ((tplrrLoop [Tok.lit 'Z'] 21 none [("x", ['A'])] [] 0).1 = [] ∧
      ncbiLoop [Tok.lit 'Z'] 21 [("x", ['A'])] [] = [] ∧
      bspaLoop [Tok.lit 'Z'] [("x", ['A'])] [] =
        [("x", { count := 0, total_lrr_length := 0, total_length := ['A'].length,
                 patterns := [] })] ∧
      revisedLoop [Tok.lit 'Z'] [("x", ['A'])] [] =
        [("x", { count := 0, total_lrr_length := 0, total_length := ['A'].length,
                 patterns := [] })]) :=
  ⟨by decide, c8_zero_match_policy [Tok.lit 'Z'] 21 "x" ['A'] (by decide)⟩

/-- C9, counterexample: with two records carrying the same id where the later
one has no match, the keep-only-matches scan of tplrr_finder keeps the entry
of the EARLIER record (count = 1), not the MatchResult computed from the
later record (which is the zero entry shown in the third conjunct) — so the
later record does not overwrite the earlier one. -/
theorem c9_lastwins_counterexample :
    tplrrFindLrrPatterns "TpLRR" none
        (FileContent.gz [("id1", "XXCXXLXXIXLXXXLXXIXXXAFYYYY".toList),
                         ("id1", "A".toList)]) =
      Except.ok [("id1",
        { count := 1, total_lrr_length := 21, total_length := 27,
          patterns := "CXXLXXIXLXXXLXXIXXXAF".toList })] ∧
    (getCompiledPattern "TpLRR").map
        (fun tp => mkLrrEntry tp.2 (findall tp.1 "A".toList) "A".toList) =
      Except.ok { count := 0, total_lrr_length := 0, total_length := 1,
                  patterns := [] } ∧
    ({ count := 1, total_lrr_length := 21, total_length := 27,
       patterns := "CXXLXXIXLXXXLXXIXXXAF".toList } : LrrEntry) ≠
      { count := 0, total_lrr_length := 0, total_length := 1, patterns := [] } :=
  ⟨rfl, rfl, by decide⟩

/-- C9, amended: keys stay unique and duplicates are not errors; under the
keep-all policy (bspa_lrr_analyzer) the entry for a duplicated id is the one
computed from the last record with that id (unconditional last-wins), while
under the keep-only-matches policy (tplrr_finder) the entry is the one from
the last MATCH-BEARING record with that id — later zero-match duplicates do
not overwrite it. -/
theorem c9_lastwins_amended :
    (∀ (toks : List Tok) (id : String) (s : List Char)
       (recs1 recs2 : List (String × List Char)) (acc : List (String × LrrEntry)),
      (∀ r ∈ recs2, r.1 ≠ id) →
      dictGet id (bspaLoop toks (recs1 ++ (id, s) :: recs2) acc) =
        some (mkLrrEntry 21 (findall toks s) s)) ∧
    (∀ (toks : List Tok) (plen : Nat) (id : String) (s : List Char)
       (recs1 recs2 : List (String × List Char)) (acc : List (String × LrrEntry))
       (cnt : Nat),
      findall toks s ≠ [] →
      (∀ r ∈ recs2, r.1 = id → findall toks r.2 = []) →
      dictGet id ((tplrrLoop toks plen none (recs1 ++ (id, s) :: recs2) acc cnt).1) =
        some (mkLrrEntry plen (findall toks s) s)) :=
  ⟨fun toks id s recs1 recs2 acc h => bspaLoop_lastwins toks id recs1 s recs2 acc h,
   fun toks plen id s recs1 recs2 acc cnt hne h =>
     tplrrLoop_lastwins toks plen id recs1 s recs2 acc cnt hne h⟩

/-- Witness for the amended C9 at concrete duplicate-id record lists. -/
theorem c9_lastwins_amended_witness :
    dictGet "i" (bspaLoop [Tok.lit 'A'] ([("i", [])] ++ ("i", ['A']) :: [("j", ['A'])]) []) =
      some (mkLrrEntry 21 (findall [Tok.lit 'A'] ['A']) ['A']) ∧
    dictGet "i" ((tplrrLoop [Tok.lit 'A'] 21 none ([] ++ ("i", ['A']) :: [("i", ['Z'])]) [] 0).1) =
      some (mkLrrEntry 21 (findall [Tok.lit 'A'] ['A']) ['A']) :=
  ⟨c9_lastwins_amended.1 [Tok.lit 'A'] "i" ['A'] [("i", [])] [("j", ['A'])] []
     (by decide),
   c9_lastwins_amended.2 [Tok.lit 'A'] 21 "i" ['A'] [] [("i", ['Z'])] [] 0
     (by decide) (by decide)⟩

/-- C10: passing max_sequences = 0 disables the record cap entirely (the run
is identical to a run without a cap, and an uncapped run examines every
record), while a positive cap n makes the loop examine exactly
min n (number of records) records before stopping. -/
theorem c10_max_sequences_cap :
    (∀ (patternName : String) (content : FileContent),
      tplrrFindLrrPatterns patternName (some 0) content =
        tplrrFindLrrPatterns patternName none content) ∧
    (∀ (toks : List Tok) (plen : Nat) (recs : List (String × List Char)),
      (tplrrLoop toks plen none recs [] 0).2 = recs.length) ∧
    (∀ (toks : List Tok) (plen : Nat) (recs : List (String × List Char)) (n : Nat),
      0 < n → (tplrrLoop toks plen (some n) recs [] 0).2 = min n recs.length) := by
  refine ⟨?_, ?_, ?_⟩
  · intro patternName content
    simp only [tplrrFindLrrPatterns]
    cases getCompiledPattern patternName with
    | error e => rfl
    | ok tp =>
      obtain ⟨toks, plen⟩ := tp
      cases gzipOpenRt content with
      | error e => rfl
      | ok recs =>
        show Except.ok (tplrrLoop toks plen (some 0) recs [] 0).1 =
          Except.ok (tplrrLoop toks plen none recs [] 0).1
        rw [tplrrLoop_some_zero]
  · intro toks plen recs
    rw [tplrrLoop_none_count]
    simp
  · intro toks plen recs n hn
    rw [tplrrLoop_cap_count toks plen n recs [] 0 hn]
    simp

/-- Witness for the positive-cap conjunct of C10 at a concrete two-record
file with cap 1. -/
theorem c10_max_sequences_cap_witness :
    (tplrrLoop [] 21 (some 1) [("a", ['A']), ("b", ['B'])] [] 0).2 =
      min 1 ([("a", ['A']), ("b", ['B'])] : List (String × List Char)).length :=
  c10_max_sequences_cap.2.2 [] 21 [("a", ['A']), ("b", ['B'])] 1 (by decide)
